import Mathlib

/-!
Shallow embedding of the multiplayer provider (`MultiplayerProvider`) of the
isometric-city repository: a Y.js-backed peer-to-peer synchronization engine
with polling-based WebRTC signaling, bundled ICE candidate exchange, a
same-origin BroadcastChannel fallback and an append-only replicated
operations log.  Every definition below is translated from the source file
`src/unnamed/part_000`; state-mutating methods become pure functions from a
provider state `MP` to a new state paired with a list of observable effects
(callback invocations, channel sends, relay posts).
-/

set_option maxHeartbeats 1000000

namespace IsoCity

/-- A player record (fields as used by the provider: `id`, `name`, `color`,
`joinedAt`, `isHost`). -/
structure Player where
  id : String
  name : String
  color : String
  joinedAt : Nat
  isHost : Bool
  deriving Repr, DecidableEq

/-- A replicated log entry: a discriminated game action stamped at dispatch
time with the authoring peer id and a timestamp.  `payload` stands for the
action's remaining data fields, which the provider never inspects. -/
structure GameAction where
  type : String
  payload : String
  playerId : String
  timestamp : Nat
  deriving Repr, DecidableEq

/-- A game action as handed to `dispatchAction`, before stamping. -/
structure ActionInput where
  type : String
  payload : String
  deriving Repr, DecidableEq

/-- The local awareness state: the pinned self player plus free-form fields. -/
structure AwState where
  player : Player
  fields : List (String × String)
  deriving Repr, DecidableEq

/-- A partial awareness update (`updateAwareness` argument). -/
structure AwUpdate where
  fields : List (String × String)
  deriving Repr, DecidableEq

/-- `RTCDataChannel.readyState` (the source only distinguishes `open`). -/
inductive ChannelState where
  | connecting
  | opened
  | closed
  deriving Repr, DecidableEq

/-- `RTCPeerConnection.connectionState`. -/
inductive ConnState where
  | new
  | connecting
  | connected
  | disconnected
  | failed
  deriving Repr, DecidableEq

/-- The observable part of an `RTCPeerConnection`: descriptions, the ICE
candidates applied via `addIceCandidate` (in application order), and the
connection state. -/
structure PC where
  localDescription : Option String
  remoteDescription : Option String
  appliedCandidates : List String
  connectionState : ConnState
  deriving Repr, DecidableEq

/-- Data-channel message envelope (`DataChannelMessage`).  `sync`/`update`
data is a Y.js document update; the embedding carries it in decoded form as
the list of log entries the update encodes. -/
inductive DCMessage where
  | sync (data : List GameAction)
  | update (data : List GameAction)
  | awareness (data : AwState)
  | stateSync (data : String)
  | stateRequest
  deriving Repr, DecidableEq

/-- BroadcastChannel message: the data-channel envelope plus a sender id. -/
inductive BCMessage where
  | awarenessMsg (sender : String) (player : Player)
  | stateRequestMsg (sender : String)
  | stateSyncMsg (sender : String) (data : String)
  | updateMsg (sender : String) (data : List GameAction)
  deriving Repr, DecidableEq

/-- Signaling payloads posted to the relay: either the `announce` marker or
a bundled description-plus-candidates message. -/
inductive SignalPayload where
  | announce (peerId : String) (playerName : String)
  | bundle (sdp : String) (candidates : List String)
  deriving Repr, DecidableEq

/-- Observable effects of a provider method: consumer callback invocations,
sends over transports, relay requests and timed waits. -/
inductive Effect where
  | onConnectionChange (connected : Bool) (peerCount : Nat)
  | onPlayersChange (players : List Player)
  | onAction (a : GameAction)
  | onStateReceived (data : String)
  | channelSend (target : String) (msg : DCMessage)
  | broadcastPost (msg : BCMessage)
  | delayedBroadcast (msg : BCMessage)
  | signalPost (sigType : String) (payload : SignalPayload) (target : Option String)
  | pollRequest
  | roomLookup
  | wait500
  deriving Repr, DecidableEq

/-- Association-list model of a JS `Map` keyed by peer-id strings. -/
def mapGet {α : Type} : List (String × α) → String → Option α
  | [], _ => none
  | (k', v) :: rest, k => if k' = k then some v else mapGet rest k

/-- `Map.set`. -/
def mapSet {α : Type} : List (String × α) → String → α → List (String × α)
  | [], k, v => [(k, v)]
  | (k', v') :: rest, k, v =>
      if k' = k then (k, v) :: rest else (k', v') :: mapSet rest k v

/-- `Map.delete`. -/
def mapDelete {α : Type} : List (String × α) → String → List (String × α)
  | [], _ => []
  | (k', v') :: rest, k =>
      if k' = k then mapDelete rest k else (k', v') :: mapDelete rest k

/-- `Set.add` (insert if absent, preserving insertion order). -/
def setAdd (l : List String) (x : String) : List String :=
  if x ∈ l then l else l ++ [x]

/-- `Set.delete`. -/
def setRemove (l : List String) (x : String) : List String :=
  l.filter (fun y => y != x)

/-- The mutable state of a `MultiplayerProvider` instance.
`pollingActive` models whether `pollingInterval` is non-null,
`broadcastChannel` whether the BroadcastChannel handle is non-null, and
`isLocalhost` the `window.location.hostname === 'localhost'` check fixed at
construction. -/
structure MP where
  peerId : String
  roomCode : String
  isHost : Bool
  isLocalhost : Bool
  player : Player
  operationsArray : List GameAction
  metaMap : List (String × String)
  lastAppliedIndex : Nat
  destroyed : Bool
  peerConnections : List (String × PC)
  dataChannels : List (String × ChannelState)
  pollingActive : Bool
  connectedPeers : List String
  initialGameState : Option String
  pendingIceCandidates : List (String × List String)
  outgoingIceCandidates : List (String × List String)
  broadcastChannel : Bool
  useLocalFallback : Bool
  awarenessLocal : AwState
  docUpdateHook : Bool
  deriving Repr, DecidableEq

/-- Environment inputs the provider reads from the host platform:
the clock, the color generator, and whether the room record is visible to
the relay at the i-th lookup. -/
structure Env where
  now : Nat
  colorOf : String → String
  roomVisible : Nat → Bool

/-- The constructor of `MultiplayerProvider` (nondeterministic inputs —
generated peer id, generated color, clock — passed explicitly). -/
def mkProvider (roomCode cityName playerName : String) (isHost : Bool)
    (initialGameState : Option String) (peerId : String) (color : String)
    (now : Nat) (isLocalhost : Bool) : MP :=
  let player : Player :=
    { id := peerId, name := playerName, color := color,
      joinedAt := now, isHost := isHost }
  { peerId := peerId
    roomCode := roomCode
    isHost := isHost
    isLocalhost := isLocalhost
    player := player
    operationsArray := []
    metaMap :=
      if isHost then
        [("hostId", peerId), ("createdAt", toString now),
         ("cityName", cityName), ("roomCode", roomCode)]
      else []
    lastAppliedIndex := 0
    destroyed := false
    peerConnections := []
    dataChannels := []
    pollingActive := false
    connectedPeers := []
    initialGameState := if isHost then initialGameState else none
    pendingIceCandidates := []
    outgoingIceCandidates := []
    broadcastChannel := isLocalhost
    useLocalFallback := false
    awarenessLocal := { player := player, fields := [] }
    docUpdateHook := false }

/-- The `operationsArray.observe` callback body for a change with
`added.size > 0`: slice the log from `lastAppliedIndex`, invoke `onAction`
for every sliced entry authored by a different peer, then set
`lastAppliedIndex` to the log length. -/
def observerFire (s : MP) : MP × List Effect :=
  let newOps := s.operationsArray.drop s.lastAppliedIndex
  let delivered := newOps.filter (fun op => op.playerId != s.peerId)
  ({ s with lastAppliedIndex := s.operationsArray.length },
   delivered.map Effect.onAction)

/-- Append a batch of entries to the operations log; the observer fires
exactly when the transaction added something. -/
def appendOps (s : MP) (batch : List GameAction) : MP × List Effect :=
  let s1 := { s with operationsArray := s.operationsArray ++ batch }
  if batch.isEmpty then (s1, []) else observerFire s1

/-- Run a sequence of log-append transactions (local dispatches or merges
of remote updates), collecting all `onAction` deliveries in order. -/
def runBatches : MP → List (List GameAction) → MP × List Effect
  | s, [] => (s, [])
  | s, b :: bs =>
      let p := appendOps s b
      let q := runBatches p.1 bs
      (q.1, p.2 ++ q.2)

/-- The successive values of the delivery watermark along a run. -/
def watermarkTrace : MP → List (List GameAction) → List Nat
  | s, [] => [s.lastAppliedIndex]
  | s, b :: bs => s.lastAppliedIndex :: watermarkTrace (appendOps s b).1 bs

/-- `peerId.slice(-4)`: the last four characters. -/
def lastFour (st : String) : String :=
  String.mk (st.toList.drop (st.toList.length - 4))

/-- The placeholder player constructed for a connected remote peer
(`isHost` fixed to `false`, name derived from the peer id). -/
def placeholderFor (env : Env) (pid : String) : Player :=
  { id := pid, name := "Player " ++ lastFour pid, color := env.colorOf pid,
    joinedAt := env.now, isHost := false }

/-- The roster built by `getPlayers` and `notifyPlayersChange`: the self
player followed by a placeholder for each connected peer. -/
def rosterOf (s : MP) (env : Env) : List Player :=
  s.player :: s.connectedPeers.map (placeholderFor env)

/-- `getPlayers()`. -/
def getPlayers (s : MP) (env : Env) : List Player :=
  rosterOf s env

/-- `getHost()`. -/
def getHost (s : MP) (env : Env) : Option Player :=
  (getPlayers s env).find? (fun p => p.isHost)

/-- `amIHost()`. -/
def amIHost (s : MP) : Bool :=
  s.isHost

/-- `getOperationsSince(index)`. -/
def getOperationsSince (s : MP) (index : Nat) : List GameAction :=
  s.operationsArray.drop index

/-- `getAllOperations()`. -/
def getAllOperations (s : MP) : List GameAction :=
  s.operationsArray

/-- `getMeta(key)`. -/
def getMeta (s : MP) (key : String) : Option String :=
  mapGet s.metaMap key

/-- `setMeta(key, value)` — note: no `destroyed` guard in the source. -/
def setMeta (s : MP) (key value : String) : MP :=
  { s with metaMap := mapSet s.metaMap key value }

/-- `updateGameState(state)` — note: neither a `destroyed` guard nor an
`isHost` guard in the source. -/
def updateGameState (s : MP) (g : String) : MP :=
  { s with initialGameState := some g }

/-- `destroy()`: guarded by the `destroyed` flag; clears the polling
interval, closes and clears peer connections and data channels, closes the
broadcast channel.  (`connectedPeers`, the log, the meta map and the ICE
buffers are not cleared by the source.) -/
def destroy (s : MP) : MP :=
  if s.destroyed then s
  else
    { s with destroyed := true, pollingActive := false,
             peerConnections := [], dataChannels := [],
             broadcastChannel := false }

/-- JS object spread `{...current, ...update}` on awareness fields. -/
def mergeFields (cur upd : List (String × String)) : List (String × String) :=
  upd.foldl (fun acc kv => mapSet acc kv.1 kv.2) cur

/-- `updateAwareness(update)`: destroyed-guarded; merges the update into
the local state, re-asserting the authoritative self player. -/
def updateAwareness (s : MP) (u : AwUpdate) : MP :=
  if s.destroyed then s
  else
    { s with awarenessLocal :=
        { player := s.player,
          fields := mergeFields s.awarenessLocal.fields u.fields } }

/-- `Y.applyUpdate`: merge a decoded remote update into the document.  The
merge is idempotent — entries already present are not re-added — and any
newly added entries trigger the log observer. -/
def applyUpdateOps (s : MP) (data : List GameAction) : MP × List Effect :=
  appendOps s (data.filter (fun op => !(decide (op ∈ s.operationsArray))))

/-- `notifyPlayersChange` / the `onConnectionChange` part of
`updateConnectionStatus`: pure effect emission. -/
def updateConnectionStatus (s : MP) (env : Env) : List Effect :=
  [Effect.onConnectionChange true (s.connectedPeers.length + 1),
   Effect.onPlayersChange (rosterOf s env)]

/-- `enableLocalFallback()`: no-op if already active or no broadcast
channel exists; otherwise activates the fallback, announces over the
broadcast channel, schedules a delayed `state-request` if not host,
installs the document-update hook and notifies connection status. -/
def enableLocalFallback (s : MP) (env : Env) : MP × List Effect :=
  if s.useLocalFallback then (s, [])
  else if !s.broadcastChannel then (s, [])
  else
    let s1 := { s with useLocalFallback := true, docUpdateHook := true }
    let announceE := [Effect.broadcastPost (BCMessage.awarenessMsg s.peerId s.player)]
    let reqE :=
      if s.isHost then []
      else [Effect.delayedBroadcast (BCMessage.stateRequestMsg s.peerId)]
    (s1, announceE ++ reqE ++ updateConnectionStatus s1 env)

/-- `stopPollingIfConnected()`. -/
def stopPollingIfConnected (s : MP) : MP :=
  if 0 < s.connectedPeers.length ∧ s.pollingActive = true then
    { s with pollingActive := false }
  else s

/-- Removal of a failed or disconnected peer from the connected set, the
connection table and the data-channel table. -/
def removePeerState (s : MP) (p : String) : MP :=
  { s with connectedPeers := setRemove s.connectedPeers p,
           peerConnections := mapDelete s.peerConnections p,
           dataChannels := mapDelete s.dataChannels p }

/-- The `onconnectionstatechange` handler of a peer connection. -/
def onConnectionStateChange (s : MP) (p : String) (st : ConnState) (env : Env) :
    MP × List Effect :=
  if st = ConnState.connected then
    let s1 := { s with connectedPeers := setAdd s.connectedPeers p }
    let effs := updateConnectionStatus s1 env
    (stopPollingIfConnected s1, effs)
  else if st = ConnState.disconnected ∨ st = ConnState.failed then
    let s1 := removePeerState s p
    let effs := updateConnectionStatus s1 env
    if s1.broadcastChannel && !s1.useLocalFallback then
      let q := enableLocalFallback s1 env
      (q.1, effs ++ q.2)
    else (s1, effs)
  else (s, [])

/-- `handleDataChannelMessage`: envelope dispatch over an open channel. -/
def handleDataChannelMessage (s : MP) (msg : DCMessage) (remotePeerId : String)
    (env : Env) : MP × List Effect :=
  match msg with
  | DCMessage.sync data => applyUpdateOps s data
  | DCMessage.update data => applyUpdateOps s data
  | DCMessage.awareness _ =>
      (s, [Effect.onPlayersChange (rosterOf s env)])
  | DCMessage.stateRequest =>
      match s.isHost, s.initialGameState with
      | true, some g =>
          match mapGet s.dataChannels remotePeerId with
          | some ChannelState.opened =>
              (s, [Effect.channelSend remotePeerId (DCMessage.stateSync g)])
          | _ => (s, [])
      | _, _ => (s, [])
  | DCMessage.stateSync data =>
      (s, [Effect.onStateReceived data])

/-- The ICE-gathering behaviour of a freshly created peer connection, as
observed during one offer/answer exchange: the candidates the platform
produces (with the time each `onicecandidate` event fires, measured from
the start of the gather wait) and the time gathering reaches `complete`
(`none` if it never does). -/
structure IceEnv where
  gathered : List (Nat × String)
  completeAt : Option Nat
  deriving Repr, DecidableEq

/-- Resolution time of the gather wait: the promise resolves at the
`icegatheringstatechange`-to-complete event or at the 3000 ms timeout,
whichever fires first. -/
def gatherResolveTime (ice : IceEnv) : Nat :=
  match ice.completeAt with
  | some tc => min tc 3000
  | none => 3000

/-- The outgoing candidates accumulated by the `onicecandidate` handler by
the time the gather wait resolves. -/
def candidatesBeforeResolve (ice : IceEnv) : List String :=
  (ice.gathered.filter (fun tc => decide (tc.1 ≤ gatherResolveTime ice))).map
    (fun tc => tc.2)

/-- The state of a freshly constructed `RTCPeerConnection`. -/
def freshPC : PC :=
  { localDescription := none, remoteDescription := none,
    appliedCandidates := [], connectionState := ConnState.new }

/-- `createPeerConnection(remotePeerId, createOffer)`: returns the existing
connection unchanged if one exists; otherwise registers a fresh connection
and, on the offering side, creates the data channel locally, produces a
local description, performs the gather-or-timeout wait and sends one
bundled offer (description plus buffered candidates), clearing the
outgoing-candidate buffer. -/
def createPeerConnection (s : MP) (remotePeerId : String) (createOffer : Bool)
    (ice : IceEnv) : MP × List Effect :=
  match mapGet s.peerConnections remotePeerId with
  | some _ => (s, [])
  | none =>
      let pc0 : PC := freshPC
      let s1 := { s with peerConnections := mapSet s.peerConnections remotePeerId pc0 }
      if createOffer then
        let offerSdp := "offer:" ++ s.peerId
        let s2 := { s1 with
          dataChannels := mapSet s1.dataChannels remotePeerId ChannelState.connecting }
        let pc1 := { pc0 with localDescription := some offerSdp }
        let bundled :=
          (mapGet s.outgoingIceCandidates remotePeerId).getD []
            ++ candidatesBeforeResolve ice
        let s3 := { s2 with
          peerConnections := mapSet s2.peerConnections remotePeerId pc1,
          outgoingIceCandidates := mapDelete s2.outgoingIceCandidates remotePeerId }
        (s3, [Effect.signalPost "offer" (SignalPayload.bundle offerSdp bundled)
                (some remotePeerId)])
      else (s1, [])

/-- `handleOffer`: answering side.  Creates (or reuses) the connection,
applies the remote description, then the candidates bundled with the
offer, then any candidates buffered earlier against this sender (deleting
the buffer only when it was non-empty), produces a local description,
performs the gather-or-timeout wait and replies with one bundled answer. -/
def handleOffer (s : MP) (sender : String) (offerSdp : String)
    (offerCandidates : List String) (ice : IceEnv) : MP × List Effect :=
  let c := createPeerConnection s sender false ice
  match mapGet c.1.peerConnections sender with
  | none => c
  | some pc =>
      let buffered := (mapGet c.1.pendingIceCandidates sender).getD []
      let pc1 := { pc with
        remoteDescription := some offerSdp,
        appliedCandidates := pc.appliedCandidates ++ offerCandidates ++ buffered }
      let s2 := { c.1 with
        peerConnections := mapSet c.1.peerConnections sender pc1,
        pendingIceCandidates :=
          if buffered.isEmpty then c.1.pendingIceCandidates
          else mapDelete c.1.pendingIceCandidates sender }
      let answerSdp := "answer:" ++ s.peerId
      let pc2 := { pc1 with localDescription := some answerSdp }
      let bundled :=
        (mapGet s2.outgoingIceCandidates sender).getD []
          ++ candidatesBeforeResolve ice
      let s3 := { s2 with
        peerConnections := mapSet s2.peerConnections sender pc2,
        outgoingIceCandidates := mapDelete s2.outgoingIceCandidates sender }
      (s3, c.2 ++ [Effect.signalPost "answer" (SignalPayload.bundle answerSdp bundled)
                     (some sender)])

/-- `handleLegacyIceCandidate`: the candidates of a legacy (unbundled)
`ice-candidate` signal are applied immediately when a connection for the
sender exists, and buffered keyed by the sender id otherwise. -/
def handleLegacyIceCandidate (s : MP) (sender : String) (cands : List String) : MP :=
  match mapGet s.peerConnections sender with
  | some pc =>
      let pc1 := { pc with appliedCandidates := pc.appliedCandidates ++ cands }
      { s with peerConnections := mapSet s.peerConnections sender pc1 }
  | none =>
      let buf := (mapGet s.pendingIceCandidates sender).getD [] ++ cands
      { s with pendingIceCandidates := mapSet s.pendingIceCandidates sender buf }

/-- Process a sequence of legacy candidate signals from one sender. -/
def runLegacy (s : MP) (sender : String) : List (List String) → MP
  | [] => s
  | cs :: rest => runLegacy (handleLegacyIceCandidate s sender cs) sender rest

/-- The host-side room-record retry loop in `startPolling`: at most `fuel`
lookups (6 in the source), breaking on the first visible result and
waiting 500 ms after each miss. -/
def roomRetry (visible : Nat → Bool) : Nat → Nat → List Effect
  | _, 0 => []
  | i, fuel + 1 =>
      Effect.roomLookup ::
        (if visible i then []
         else Effect.wait500 :: roomRetry visible (i + 1) fuel)

/-- `startSignalPolling()`: guarded on the interval already existing;
hosts first run the bounded room-record retry; then the interval is
installed unconditionally and an initial poll is issued. -/
def startPolling (s : MP) (env : Env) : MP × List Effect :=
  if s.pollingActive then (s, [])
  else
    let retryEffs := if s.isHost then roomRetry env.roomVisible 0 6 else []
    ({ s with pollingActive := true }, retryEffs ++ [Effect.pollRequest])

/-- `connect()`: destroyed-guarded; optimistic connected notification,
initial roster notification, then either the loopback path (localhost) or
relay polling plus a non-host announcement. -/
def connect (s : MP) (env : Env) : MP × List Effect :=
  if s.destroyed then (s, [])
  else
    let effs := [Effect.onConnectionChange true 1,
                 Effect.onPlayersChange (rosterOf s env)]
    if s.isLocalhost then
      let q := enableLocalFallback s env
      (q.1, effs ++ q.2)
    else
      let q := startPolling s env
      if s.isHost then (q.1, effs ++ q.2)
      else
        (q.1, effs ++ q.2 ++
          [Effect.signalPost "offer"
            (SignalPayload.announce s.peerId s.player.name) none])

/-- `dispatchAction(action)`: destroyed-guarded; stamps the action with
the local peer id and time, pushes it to the log (firing the observer),
then sends the resulting encoded update over every open data channel and,
when the fallback is active, over the broadcast channel. -/
def dispatchAction (s : MP) (a : ActionInput) (env : Env) : MP × List Effect :=
  if s.destroyed then (s, [])
  else
    let fullAction : GameAction :=
      { type := a.type, payload := a.payload,
        timestamp := env.now, playerId := s.peerId }
    let p := appendOps s [fullAction]
    let chanEffs :=
      (p.1.dataChannels.filter (fun kv => kv.2 == ChannelState.opened)).map
        (fun kv => Effect.channelSend kv.1 (DCMessage.update p.1.operationsArray))
    let bcEffs :=
      if p.1.useLocalFallback && p.1.broadcastChannel then
        [Effect.broadcastPost (BCMessage.updateMsg s.peerId p.1.operationsArray)]
      else []
    (p.1, p.2 ++ chanEffs ++ bcEffs)

/-- The asynchronous events delivered to a provider by the event loop
after `connect()` has run (a poll-interval tick, a connection state
change, an incoming data-channel message, an incoming signal, a local
dispatch, teardown). -/
inductive PollEv where
  | pollTick
  | connChange (p : String) (st : ConnState)
  | dcMsg (msg : DCMessage) (sender : String)
  | legacyCand (sender : String) (cands : List String)
  | offerMsg (sender : String) (sdp : String) (cands : List String)
  | dispatch (a : ActionInput)
  | destroyEv
  deriving Repr

/-- One event-loop step.  A poll tick exists only while the interval is
installed, and its callback checks the destroyed flag before fetching. -/
def provStep (env : Env) (ice : IceEnv) (s : MP) : PollEv → MP × List Effect
  | PollEv.pollTick =>
      if s.pollingActive then
        (if s.destroyed then (s, []) else (s, [Effect.pollRequest]))
      else (s, [])
  | PollEv.connChange p st => onConnectionStateChange s p st env
  | PollEv.dcMsg msg sender => handleDataChannelMessage s msg sender env
  | PollEv.legacyCand sender cands => (handleLegacyIceCandidate s sender cands, [])
  | PollEv.offerMsg sender sdp cands => handleOffer s sender sdp cands ice
  | PollEv.dispatch a => dispatchAction s a env
  | PollEv.destroyEv => (destroy s, [])

/-- Run a sequence of event-loop steps, collecting all effects. -/
def runEvents (env : Env) (ice : IceEnv) : MP → List PollEv → MP × List Effect
  | s, [] => (s, [])
  | s, e :: es =>
      let p := provStep env ice s e
      let q := runEvents env ice p.1 es
      (q.1, p.2 ++ q.2)

/-- Concrete environment used to instantiate theorems. -/
def envW : Env :=
  { now := 1000, colorOf := fun _ => "#ff0000", roomVisible := fun _ => false }

/-- Concrete host provider instance. -/
def hostProv : MP :=
  mkProvider "ROOM" "City" "Alice" true (some "snapshot0") "hostpeer" "#00ff00" 500 false

/-- Concrete guest provider instance. -/
def guestProv : MP :=
  mkProvider "ROOM" "City" "Bob" false none "guestpeer" "#0000ff" 600 false

/-- A log entry authored by a peer other than `guestProv`. -/
def actRemote : GameAction :=
  { type := "setTaxRate", payload := "0.09", playerId := "hostpeer", timestamp := 700 }

/-- A log entry authored by `guestProv` itself. -/
def actSelfG : GameAction :=
  { type := "build", payload := "road", playerId := "guestpeer", timestamp := 710 }

/-- Concrete ICE behaviour: one candidate inside the 3000 ms window, one
after it; gathering completes only at 5000 ms. -/
def iceW : IceEnv :=
  { gathered := [(100, "c1"), (4000, "c2")], completeAt := some 5000 }

/-- Concrete host state holding an open data channel to the guest, as after
`setupDataChannel` and the channel `onopen` event. -/
def hostOpenChan : MP :=
  { hostProv with dataChannels := [("guestpeer", ChannelState.opened)] }

/-- Concrete peer-connection record for a negotiated remote peer. -/
def pcX : PC :=
  { localDescription := some "offer:hostpeer", remoteDescription := some "answer:guestpeer",
    appliedCandidates := ["c1"], connectionState := ConnState.connected }

/-- Concrete localhost guest with one connected peer, as input for a
connection-failure transition. -/
def guestLocal : MP :=
  { mkProvider "ROOM" "City" "Carol" false none "carolpeer" "#123456" 800 true with
      connectedPeers := ["peerX"],
      peerConnections := [("peerX", pcX)],
      dataChannels := [("peerX", ChannelState.opened)] }

/-- Whether an effect is a room-record lookup request. -/
def isRoomLookup : Effect → Bool
  | Effect.roomLookup => true
  | _ => false

/-- Number of room-record lookups among a list of effects. -/
def lookupCount (effs : List Effect) : Nat :=
  (effs.filter isRoomLookup).length

/-! ## Helper lemmas -/

theorem mapGet_mapSet_self {α : Type} (m : List (String × α)) (k : String) (v : α) :
    mapGet (mapSet m k v) k = some v := by
  induction m with
  | nil => simp [mapGet, mapSet]
  | cons kv rest ih =>
      by_cases h : kv.1 = k
      · simp [mapGet, mapSet, h]
      · simp [mapGet, mapSet, h, ih]

theorem mapGet_mapSet_ne {α : Type} (m : List (String × α)) (k k' : String) (v : α)
    (h : k ≠ k') : mapGet (mapSet m k v) k' = mapGet m k' := by
  induction m with
  | nil => simp [mapGet, mapSet, h]
  | cons kv rest ih =>
      by_cases hk : kv.1 = k
      · simp [mapGet, mapSet, hk, h]
      · simp [mapGet, mapSet, hk, ih]

theorem mapGet_mapDelete_self {α : Type} (m : List (String × α)) (k : String) :
    mapGet (mapDelete m k) k = none := by
  induction m with
  | nil => simp [mapGet, mapDelete]
  | cons kv rest ih =>
      by_cases h : kv.1 = k
      · simp [mapDelete, h, ih]
      · simp [mapGet, mapDelete, h, ih]

/-- Core fact about one log-append transaction: starting from a state whose
watermark equals the log length, the transaction delivers exactly the
remote-authored entries of the batch, re-establishes the invariant, and
never moves the watermark backwards. -/
theorem appendOps_spec (s : MP) (b : List GameAction)
    (h : s.lastAppliedIndex = s.operationsArray.length) :
    (appendOps s b).1.lastAppliedIndex = (appendOps s b).1.operationsArray.length
    ∧ (appendOps s b).1.operationsArray = s.operationsArray ++ b
    ∧ (appendOps s b).2
      = (b.filter (fun op => op.playerId != s.peerId)).map Effect.onAction
    ∧ s.lastAppliedIndex ≤ (appendOps s b).1.lastAppliedIndex
    ∧ (appendOps s b).1.peerId = s.peerId := by
  by_cases hb : b.isEmpty
  · rcases List.isEmpty_iff.mp hb with rfl
    simp [appendOps, h]
  · simp only [appendOps, hb, if_false, observerFire]
    refine ⟨rfl, rfl, ?_, ?_, rfl⟩
    · simp [h, List.drop_left]
    · simp [h]

theorem runBatches_spec (batches : List (List GameAction)) (s : MP)
    (h : s.lastAppliedIndex = s.operationsArray.length) :
    (runBatches s batches).2
      = ((batches.flatten).filter (fun op => op.playerId != s.peerId)).map Effect.onAction
    ∧ List.Chain' (· ≤ ·) (watermarkTrace s batches) := by
  induction batches generalizing s with
  | nil => simp [runBatches, watermarkTrace]
  | cons b bs ih =>
      obtain ⟨hinv, hops, heff, hmono, hpid⟩ := appendOps_spec s b h
      obtain ⟨ih1, ih2⟩ := ih (appendOps s b).1 hinv
      constructor
      · show ((appendOps s b).2 ++ (runBatches (appendOps s b).1 bs).2) = _
        rw [heff, ih1, hpid]
        simp [List.filter_append]
      · show List.Chain' (· ≤ ·)
          (s.lastAppliedIndex :: watermarkTrace (appendOps s b).1 bs)
        rw [List.chain'_cons']
        refine ⟨?_, ih2⟩
        intro y hy
        cases bs with
        | nil =>
            simp only [watermarkTrace, List.head?] at hy
            cases hy
            exact hmono
        | cons b' bs' =>
            simp only [watermarkTrace, List.head?] at hy
            cases hy
            exact hmono

/-! ## Claim C1 -/

/-- Claim C1: the delivery watermark (`lastAppliedIndex`) is monotonically
non-decreasing across any sequence of log-append transactions, and the
`onAction` observer is invoked exactly once for each appended operation
whose authoring peer id differs from the local peer id — in append order —
and never for an operation authored by the local peer.  The hypothesis is
the watermark invariant, which holds at construction (both sides are 0)
and is preserved by every transaction. -/
theorem C1_watermark_monotone_exactly_once (s : MP)
    (batches : List (List GameAction))
    (h : s.lastAppliedIndex = s.operationsArray.length) :
    List.Chain' (· ≤ ·) (watermarkTrace s batches)
    ∧ (runBatches s batches).2
      = ((batches.flatten).filter (fun op => op.playerId != s.peerId)).map
          Effect.onAction :=
  ⟨(runBatches_spec batches s h).2, (runBatches_spec batches s h).1⟩

/-- Witness for C1 at a concrete guest provider with one remote-authored
and one self-authored batch. -/
theorem C1_watermark_monotone_exactly_once_witness :
    List.Chain' (· ≤ ·) (watermarkTrace guestProv [[actRemote], [actSelfG]])
    ∧ (runBatches guestProv [[actRemote], [actSelfG]]).2
      = ((([[actRemote], [actSelfG]] : List (List GameAction)).flatten).filter
          (fun op => op.playerId != guestProv.peerId)).map Effect.onAction :=
  C1_watermark_monotone_exactly_once guestProv [[actRemote], [actSelfG]] rfl

/-! ## Claim C2 -/

theorem destroy_destroyed (s : MP) : (destroy s).destroyed = true := by
  unfold destroy
  by_cases h : s.destroyed = true <;> simp [h]

/-- Claim C2 counterexample: after `destroy()`, `setMeta` is not a no-op —
it still writes the meta map and the write is observable through `getMeta`.
The source guards only `connect`, `dispatchAction` and `updateAwareness`
with the destroyed flag; the accessors have no guard. -/
theorem C2_counterexample_setMeta_after_destroy :
    (destroy guestProv).destroyed = true
    ∧ getMeta (destroy guestProv) "k" = none
    ∧ setMeta (destroy guestProv) "k" "v" ≠ destroy guestProv
    ∧ getMeta (setMeta (destroy guestProv) "k" "v") "k" = some "v" := by
  decide

/-- Claim C2 as amended: `destroy()` is idempotent, and the destroyed flag
makes `connect`, `dispatchAction` and `updateAwareness` no-ops after
teardown; the remaining public methods never throw but are not guarded —
in particular `setMeta` still mutates the meta map observably. -/
theorem C2_destroy_idempotent_guarded (s : MP) (env : Env) (a : ActionInput)
    (u : AwUpdate) (k v : String) :
    destroy (destroy s) = destroy s
    ∧ connect (destroy s) env = (destroy s, [])
    ∧ dispatchAction (destroy s) a env = (destroy s, [])
    ∧ updateAwareness (destroy s) u = destroy s
    ∧ getMeta (setMeta (destroy s) k v) k = some v := by
  have hd : (destroy s).destroyed = true := destroy_destroyed s
  refine ⟨?_, ?_, ?_, ?_, ?_⟩
  · by_cases h : s.destroyed = true <;> simp [destroy, h]
  · simp [connect, hd]
  · simp [dispatchAction, hd]
  · simp [updateAwareness, hd]
  · simp [getMeta, setMeta, mapGet_mapSet_self]

/-! ## Claim C3 -/

/-- Claim C3: on a `state-request` received over an open data channel, the
provider replies with a `state-sync` if and only if it is the host and the
cached snapshot is set; before any snapshot exists no reply is sent, and
after `updateGameState S` the reply carries exactly `S`.  The hypothesis
states that the requester's channel is open, which holds whenever a
message is delivered on it. -/
theorem C3_state_request_reply (s : MP) (p : String) (env : Env) (g : String)
    (hopen : mapGet s.dataChannels p = some ChannelState.opened) :
    ((∃ g', (handleDataChannelMessage s DCMessage.stateRequest p env).2
        = [Effect.channelSend p (DCMessage.stateSync g')])
      ↔ (s.isHost = true ∧ s.initialGameState.isSome = true))
    ∧ (s.initialGameState = none →
        (handleDataChannelMessage s DCMessage.stateRequest p env).2 = [])
    ∧ (s.isHost = true →
        (handleDataChannelMessage (updateGameState s g) DCMessage.stateRequest p env).2
          = [Effect.channelSend p (DCMessage.stateSync g)]) := by
  cases hh : s.isHost <;> cases hg : s.initialGameState <;>
    simp [handleDataChannelMessage, updateGameState, hopen, hh, hg]

/-- Witness for C3: concrete host holding snapshot `snapshot0` behind an
open channel to the guest. -/
theorem C3_state_request_reply_witness :
    ((∃ g', (handleDataChannelMessage hostOpenChan DCMessage.stateRequest
        "guestpeer" envW).2
        = [Effect.channelSend "guestpeer" (DCMessage.stateSync g')])
      ↔ (hostOpenChan.isHost = true ∧ hostOpenChan.initialGameState.isSome = true))
    ∧ (hostOpenChan.initialGameState = none →
        (handleDataChannelMessage hostOpenChan DCMessage.stateRequest
          "guestpeer" envW).2 = [])
    ∧ (hostOpenChan.isHost = true →
        (handleDataChannelMessage (updateGameState hostOpenChan "snapshot1")
            DCMessage.stateRequest "guestpeer" envW).2
          = [Effect.channelSend "guestpeer" (DCMessage.stateSync "snapshot1")]) :=
  C3_state_request_reply hostOpenChan "guestpeer" envW "snapshot1" (by decide)

/-! ## Claim C4 -/

theorem handleLegacy_none_pcs (s : MP) (sender : String) (cs : List String)
    (hpc : mapGet s.peerConnections sender = none) :
    (handleLegacyIceCandidate s sender cs).peerConnections = s.peerConnections := by
  simp [handleLegacyIceCandidate, hpc]

theorem handleLegacy_none_pending (s : MP) (sender : String) (cs : List String)
    (hpc : mapGet s.peerConnections sender = none) :
    mapGet (handleLegacyIceCandidate s sender cs).pendingIceCandidates sender
      = some ((mapGet s.pendingIceCandidates sender).getD [] ++ cs) := by
  simp [handleLegacyIceCandidate, hpc, mapGet_mapSet_self]

theorem runLegacy_spec (msgs : List (List String)) (s : MP) (sender : String)
    (hpc : mapGet s.peerConnections sender = none) :
    (runLegacy s sender msgs).peerConnections = s.peerConnections
    ∧ (mapGet (runLegacy s sender msgs).pendingIceCandidates sender).getD []
        = (mapGet s.pendingIceCandidates sender).getD [] ++ msgs.flatten := by
  induction msgs generalizing s with
  | nil => simp [runLegacy]
  | cons cs rest ih =>
      have hpc2 : mapGet (handleLegacyIceCandidate s sender cs).peerConnections sender
          = none := by
        rw [handleLegacy_none_pcs s sender cs hpc]; exact hpc
      obtain ⟨ih1, ih2⟩ := ih (handleLegacyIceCandidate s sender cs) hpc2
      constructor
      · show (runLegacy (handleLegacyIceCandidate s sender cs) sender rest).peerConnections
            = s.peerConnections
        rw [ih1, handleLegacy_none_pcs s sender cs hpc]
      · show (mapGet (runLegacy (handleLegacyIceCandidate s sender cs) sender
            rest).pendingIceCandidates sender).getD [] = _
        rw [ih2, handleLegacy_none_pending s sender cs hpc]
        simp [List.append_assoc]

theorem createPC_answering (s : MP) (p : String) (ice : IceEnv)
    (hpc : mapGet s.peerConnections p = none) :
    createPeerConnection s p false ice
      = ({ s with peerConnections := mapSet s.peerConnections p freshPC }, []) := by
  simp [createPeerConnection, hpc]

/-- The negotiated connection record produced by the answering side. -/
theorem handleOffer_fresh (s : MP) (sender offerSdp : String)
    (offerCands : List String) (ice : IceEnv)
    (hpc : mapGet s.peerConnections sender = none) :
    mapGet (handleOffer s sender offerSdp offerCands ice).1.peerConnections sender
      = some { localDescription := some ("answer:" ++ s.peerId),
               remoteDescription := some offerSdp,
               appliedCandidates :=
                 offerCands ++ (mapGet s.pendingIceCandidates sender).getD [],
               connectionState := ConnState.new }
    ∧ (mapGet (handleOffer s sender offerSdp offerCands
        ice).1.pendingIceCandidates sender).getD [] = [] := by
  unfold handleOffer
  rw [createPC_answering s sender ice hpc]
  by_cases hemp : ((mapGet s.pendingIceCandidates sender).getD []).isEmpty
  · have hnil := List.isEmpty_iff.mp hemp
    simp [mapGet_mapSet_self, freshPC, hnil]
  · simp [mapGet_mapSet_self, mapGet_mapDelete_self, freshPC, hemp]

/-- Claim C4: legacy (unbundled) candidates arriving for a sender with no
connection are buffered keyed by the sender id in arrival order; once the
connection is created by an incoming offer, the buffered candidates are
applied after the offer-bundled ones, in their original order, and the
buffer is emptied; if a connection already exists, candidates are applied
to it immediately. -/
theorem C4_legacy_candidate_buffering (s : MP) (sender : String)
    (msgs : List (List String)) (offerSdp : String) (offerCands : List String)
    (ice : IceEnv)
    (hpc : mapGet s.peerConnections sender = none)
    (hpend : mapGet s.pendingIceCandidates sender = none) :
    (mapGet (runLegacy s sender msgs).pendingIceCandidates sender).getD []
        = msgs.flatten
    ∧ mapGet (runLegacy s sender msgs).peerConnections sender = none
    ∧ (∀ pc', mapGet (handleOffer (runLegacy s sender msgs) sender offerSdp
          offerCands ice).1.peerConnections sender = some pc' →
        pc'.appliedCandidates = offerCands ++ msgs.flatten)
    ∧ (mapGet (handleOffer (runLegacy s sender msgs) sender offerSdp
          offerCands ice).1.pendingIceCandidates sender).getD [] = []
    ∧ (∀ (t : MP) (pc : PC) (cands : List String),
        mapGet t.peerConnections sender = some pc →
        mapGet (handleLegacyIceCandidate t sender cands).peerConnections sender
          = some ({ pc with appliedCandidates := pc.appliedCandidates ++ cands })) := by
  obtain ⟨hA, hB⟩ := runLegacy_spec msgs s sender hpc
  have hpc' : mapGet (runLegacy s sender msgs).peerConnections sender = none := by
    rw [hA]; exact hpc
  have hbuf : (mapGet (runLegacy s sender msgs).pendingIceCandidates sender).getD []
      = msgs.flatten := by
    rw [hB, hpend]; rfl
  obtain ⟨hF1, hF2⟩ :=
    handleOffer_fresh (runLegacy s sender msgs) sender offerSdp offerCands ice hpc'
  refine ⟨hbuf, hpc', ?_, hF2, ?_⟩
  · intro pc' hpcm
    rw [hF1] at hpcm
    cases hpcm
    simp [hbuf]
  · intro t pc cands hmem
    simp [handleLegacyIceCandidate, hmem, mapGet_mapSet_self]

/-- Witness for C4: two buffered legacy candidates for the guest, then an
offer carrying one bundled candidate. -/
theorem C4_legacy_candidate_buffering_witness :
    (mapGet (runLegacy hostProv "guestpeer" [["a1"], ["a2"]]).pendingIceCandidates
        "guestpeer").getD [] = ([["a1"], ["a2"]] : List (List String)).flatten
    ∧ mapGet (runLegacy hostProv "guestpeer" [["a1"], ["a2"]]).peerConnections
        "guestpeer" = none
    ∧ (∀ pc', mapGet (handleOffer (runLegacy hostProv "guestpeer" [["a1"], ["a2"]])
          "guestpeer" "sdpG" ["b1"] iceW).1.peerConnections "guestpeer" = some pc' →
        pc'.appliedCandidates = ["b1"] ++ ([["a1"], ["a2"]] : List (List String)).flatten)
    ∧ (mapGet (handleOffer (runLegacy hostProv "guestpeer" [["a1"], ["a2"]])
          "guestpeer" "sdpG" ["b1"] iceW).1.pendingIceCandidates "guestpeer").getD []
        = []
    ∧ (∀ (t : MP) (pc : PC) (cands : List String),
        mapGet t.peerConnections "guestpeer" = some pc →
        mapGet (handleLegacyIceCandidate t "guestpeer" cands).peerConnections
            "guestpeer"
          = some ({ pc with appliedCandidates := pc.appliedCandidates ++ cands })) :=
  C4_legacy_candidate_buffering hostProv "guestpeer" [["a1"], ["a2"]] "sdpG" ["b1"]
    iceW (by decide) (by decide)

/-! ## Claim C5 -/

/-- Claim C5: on the offering side for a fresh peer, the provider creates
the data channel locally, produces a local description, resolves the
gather wait at ICE-gathering completion or at the 3000 ms timeout —
whichever comes first — and then sends exactly one bundled offer signal
carrying the description together with every candidate gathered by the
resolve time, clearing the outgoing-candidate buffer; no individual
candidate messages are sent. -/
theorem C5_offer_bundling (s : MP) (p : String) (ice : IceEnv)
    (hpc : mapGet s.peerConnections p = none)
    (hout : mapGet s.outgoingIceCandidates p = none) :
    (createPeerConnection s p true ice).2
      = [Effect.signalPost "offer"
          (SignalPayload.bundle ("offer:" ++ s.peerId) (candidatesBeforeResolve ice))
          (some p)]
    ∧ mapGet (createPeerConnection s p true ice).1.dataChannels p
        = some ChannelState.connecting
    ∧ mapGet (createPeerConnection s p true ice).1.outgoingIceCandidates p = none
    ∧ (∀ c, c ∈ candidatesBeforeResolve ice
        ↔ ∃ t, (t, c) ∈ ice.gathered ∧ t ≤ gatherResolveTime ice)
    ∧ (∀ tc, ice.completeAt = some tc → gatherResolveTime ice = min tc 3000)
    ∧ (ice.completeAt = none → gatherResolveTime ice = 3000) := by
  refine ⟨?_, ?_, ?_, ?_, ?_, ?_⟩
  · simp [createPeerConnection, hpc, hout]
  · simp [createPeerConnection, hpc, mapGet_mapSet_self]
  · simp [createPeerConnection, hpc, mapGet_mapDelete_self]
  · intro c
    constructor
    · intro hc
      rcases List.mem_map.mp hc with ⟨tc, htc, rfl⟩
      rcases List.mem_filter.mp htc with ⟨hmem, hle⟩
      exact ⟨tc.1, by simpa using hmem, by simpa using hle⟩
    · rintro ⟨t, hmem, hle⟩
      exact List.mem_map.mpr
        ⟨(t, c), List.mem_filter.mpr ⟨hmem, by simpa using hle⟩, rfl⟩
  · intro tc h
    simp [gatherResolveTime, h]
  · intro h
    simp [gatherResolveTime, h]

/-- Witness for C5: concrete gather behaviour with one candidate inside the
3000 ms window, one outside, and completion after the timeout. -/
theorem C5_offer_bundling_witness :
    (createPeerConnection hostProv "guestpeer" true iceW).2
      = [Effect.signalPost "offer"
          (SignalPayload.bundle ("offer:" ++ hostProv.peerId)
            (candidatesBeforeResolve iceW))
          (some "guestpeer")]
    ∧ mapGet (createPeerConnection hostProv "guestpeer" true iceW).1.dataChannels
        "guestpeer" = some ChannelState.connecting
    ∧ mapGet (createPeerConnection hostProv "guestpeer"
        true iceW).1.outgoingIceCandidates "guestpeer" = none
    ∧ (∀ c, c ∈ candidatesBeforeResolve iceW
        ↔ ∃ t, (t, c) ∈ iceW.gathered ∧ t ≤ gatherResolveTime iceW)
    ∧ (∀ tc, iceW.completeAt = some tc → gatherResolveTime iceW = min tc 3000)
    ∧ (iceW.completeAt = none → gatherResolveTime iceW = 3000) :=
  C5_offer_bundling hostProv "guestpeer" iceW (by decide) (by decide)

/-! ## Claim C6 -/

theorem appendOps_pollingActive (s : MP) (b : List GameAction) :
    (appendOps s b).1.pollingActive = s.pollingActive := by
  by_cases hb : b.isEmpty <;> simp [appendOps, observerFire, hb]

theorem handleDCM_stateRequest_state (s : MP) (p : String) (env : Env) :
    (handleDataChannelMessage s DCMessage.stateRequest p env).1 = s := by
  unfold handleDataChannelMessage
  cases hh : s.isHost <;> cases hg : s.initialGameState <;> simp [hh, hg]
  cases hm : mapGet s.dataChannels p with
  | none => rfl
  | some cs => cases cs <;> rfl

theorem handleDCM_pollingActive (s : MP) (msg : DCMessage) (p : String) (env : Env) :
    (handleDataChannelMessage s msg p env).1.pollingActive = s.pollingActive := by
  cases msg with
  | sync data => simp [handleDataChannelMessage, applyUpdateOps, appendOps_pollingActive]
  | update data => simp [handleDataChannelMessage, applyUpdateOps, appendOps_pollingActive]
  | awareness data => rfl
  | stateSync data => rfl
  | stateRequest => rw [handleDCM_stateRequest_state]

theorem handleLegacy_pollingActive (s : MP) (sender : String) (cands : List String) :
    (handleLegacyIceCandidate s sender cands).pollingActive = s.pollingActive := by
  unfold handleLegacyIceCandidate
  cases mapGet s.peerConnections sender <;> simp

theorem createPC_pollingActive (s : MP) (p : String) (co : Bool) (ice : IceEnv) :
    (createPeerConnection s p co ice).1.pollingActive = s.pollingActive := by
  unfold createPeerConnection
  cases mapGet s.peerConnections p <;> cases co <;> simp

theorem handleOffer_pollingActive (s : MP) (sender sdp : String)
    (cands : List String) (ice : IceEnv) :
    (handleOffer s sender sdp cands ice).1.pollingActive = s.pollingActive := by
  unfold handleOffer
  cases hm : mapGet (createPeerConnection s sender false ice).1.peerConnections sender
    <;> simp [hm, createPC_pollingActive]

theorem enableLocalFallback_pollingActive (s : MP) (env : Env) :
    (enableLocalFallback s env).1.pollingActive = s.pollingActive := by
  unfold enableLocalFallback
  by_cases h1 : s.useLocalFallback <;> by_cases h2 : s.broadcastChannel <;> simp [h1, h2]

theorem setAdd_length_pos (l : List String) (x : String) :
    0 < (setAdd l x).length := by
  unfold setAdd
  by_cases h : x ∈ l
  · simp only [h, if_true]
    exact List.length_pos.mpr (List.ne_nil_of_mem h)
  · simp [h]

theorem removePeerState_fields (s : MP) (p : String) :
    (removePeerState s p).broadcastChannel = s.broadcastChannel
    ∧ (removePeerState s p).useLocalFallback = s.useLocalFallback
    ∧ (removePeerState s p).peerId = s.peerId
    ∧ (removePeerState s p).player = s.player := by
  simp [removePeerState]

theorem enableLocalFallback_fields (s : MP) (env : Env) :
    (enableLocalFallback s env).1.connectedPeers = s.connectedPeers
    ∧ (enableLocalFallback s env).1.peerConnections = s.peerConnections
    ∧ (enableLocalFallback s env).1.dataChannels = s.dataChannels := by
  unfold enableLocalFallback
  by_cases h1 : s.useLocalFallback <;> by_cases h2 : s.broadcastChannel <;>
    simp [h1, h2]

theorem enableLocalFallback_active (s : MP) (env : Env)
    (h1 : s.useLocalFallback = false) (h2 : s.broadcastChannel = true) :
    (enableLocalFallback s env).1.useLocalFallback = true
    ∧ Effect.broadcastPost (BCMessage.awarenessMsg s.peerId s.player)
        ∈ (enableLocalFallback s env).2 := by
  by_cases h3 : s.isHost <;> simp [enableLocalFallback, h1, h2, h3]

theorem connFail_eq (s : MP) (p : String) (st : ConnState) (env : Env)
    (hne : ¬ st = ConnState.connected)
    (hor : st = ConnState.disconnected ∨ st = ConnState.failed) :
    onConnectionStateChange s p st env
      = if (removePeerState s p).broadcastChannel
            && !(removePeerState s p).useLocalFallback then
          ((enableLocalFallback (removePeerState s p) env).1,
           updateConnectionStatus (removePeerState s p) env
             ++ (enableLocalFallback (removePeerState s p) env).2)
        else (removePeerState s p, updateConnectionStatus (removePeerState s p) env) := by
  simp only [onConnectionStateChange, if_neg hne, if_pos hor]

theorem connStateChange_pollingFalse (s : MP) (p : String) (st : ConnState) (env : Env)
    (h : s.pollingActive = false) :
    (onConnectionStateChange s p st env).1.pollingActive = false := by
  by_cases h1 : st = ConnState.connected
  · have hpos := setAdd_length_pos s.connectedPeers p
    simp [onConnectionStateChange, h1, stopPollingIfConnected, hpos, h]
  · by_cases h2 : st = ConnState.disconnected ∨ st = ConnState.failed
    · rw [connFail_eq s p st env h1 h2]
      by_cases h3 : ((removePeerState s p).broadcastChannel
          && !(removePeerState s p).useLocalFallback) = true
      · rw [if_pos h3]
        show (enableLocalFallback (removePeerState s p) env).1.pollingActive = false
        rw [enableLocalFallback_pollingActive]
        simpa [removePeerState] using h
      · rw [if_neg h3]
        simpa [removePeerState] using h
    · simp [onConnectionStateChange, h1, h2, h]

theorem dispatchAction_pollingActive (s : MP) (a : ActionInput) (env : Env) :
    (dispatchAction s a env).1.pollingActive = s.pollingActive := by
  unfold dispatchAction
  by_cases hd : s.destroyed <;> simp [hd, appendOps_pollingActive]

theorem destroy_pollingActive (s : MP) (h : s.pollingActive = false) :
    (destroy s).pollingActive = false := by
  unfold destroy
  by_cases hd : s.destroyed <;> simp [hd, h]

theorem appendOps_no_poll (s : MP) (b : List GameAction) :
    Effect.pollRequest ∉ (appendOps s b).2 := by
  by_cases hb : b.isEmpty <;> simp [appendOps, observerFire, hb]

theorem updateConnectionStatus_no_poll (s : MP) (env : Env) :
    Effect.pollRequest ∉ updateConnectionStatus s env := by
  simp [updateConnectionStatus]

theorem enableLocalFallback_no_poll (s : MP) (env : Env) :
    Effect.pollRequest ∉ (enableLocalFallback s env).2 := by
  unfold enableLocalFallback
  by_cases h1 : s.useLocalFallback <;> by_cases h2 : s.broadcastChannel <;>
    by_cases h3 : s.isHost <;> simp [h1, h2, h3, updateConnectionStatus]

theorem connStateChange_no_poll (s : MP) (p : String) (st : ConnState) (env : Env) :
    Effect.pollRequest ∉ (onConnectionStateChange s p st env).2 := by
  by_cases h1 : st = ConnState.connected
  · simp [onConnectionStateChange, h1, updateConnectionStatus]
  · by_cases h2 : st = ConnState.disconnected ∨ st = ConnState.failed
    · rw [connFail_eq s p st env h1 h2]
      by_cases h3 : ((removePeerState s p).broadcastChannel
          && !(removePeerState s p).useLocalFallback) = true
      · rw [if_pos h3]
        intro hmem
        rcases List.mem_append.mp hmem with hm | hm
        · exact updateConnectionStatus_no_poll _ _ hm
        · exact enableLocalFallback_no_poll _ _ hm
      · rw [if_neg h3]
        exact updateConnectionStatus_no_poll _ _
    · simp [onConnectionStateChange, h1, h2]

theorem handleDCM_no_poll (s : MP) (msg : DCMessage) (p : String) (env : Env) :
    Effect.pollRequest ∉ (handleDataChannelMessage s msg p env).2 := by
  cases msg with
  | sync data => exact appendOps_no_poll _ _
  | update data => exact appendOps_no_poll _ _
  | awareness data => simp [handleDataChannelMessage]
  | stateSync data => simp [handleDataChannelMessage]
  | stateRequest =>
      unfold handleDataChannelMessage
      cases hh : s.isHost <;> cases hg : s.initialGameState <;> simp [hh, hg]
      rcases hm : mapGet s.dataChannels p with _ | cs
      · simp [hm]
      · cases cs <;> simp [hm]

theorem createPC_no_poll (s : MP) (p : String) (co : Bool) (ice : IceEnv) :
    Effect.pollRequest ∉ (createPeerConnection s p co ice).2 := by
  unfold createPeerConnection
  cases mapGet s.peerConnections p <;> cases co <;> simp

theorem handleOffer_no_poll (s : MP) (sender sdp : String) (cands : List String)
    (ice : IceEnv) :
    Effect.pollRequest ∉ (handleOffer s sender sdp cands ice).2 := by
  unfold handleOffer
  rcases hm : mapGet (createPeerConnection s sender false ice).1.peerConnections sender
    with _ | pc
  · simpa [hm] using createPC_no_poll s sender false ice
  · simp only [hm]
    intro hmem
    exact createPC_no_poll s sender false ice (by simpa using hmem)

theorem dispatchAction_no_poll (s : MP) (a : ActionInput) (env : Env) :
    Effect.pollRequest ∉ (dispatchAction s a env).2 := by
  unfold dispatchAction
  by_cases hd : s.destroyed
  · simp [hd]
  · simp only [hd, Bool.false_eq_true, if_false]
    intro hmem
    exact appendOps_no_poll _ _ (by simpa using hmem)

theorem provStep_quiet (env : Env) (ice : IceEnv) (s : MP) (e : PollEv)
    (h : s.pollingActive = false) :
    (provStep env ice s e).1.pollingActive = false
    ∧ Effect.pollRequest ∉ (provStep env ice s e).2 := by
  cases e with
  | pollTick => simp [provStep, h]
  | connChange p st =>
      exact ⟨connStateChange_pollingFalse s p st env h, connStateChange_no_poll s p st env⟩
  | dcMsg msg sender =>
      refine ⟨?_, handleDCM_no_poll s msg sender env⟩
      rw [show (provStep env ice s (PollEv.dcMsg msg sender)).1
            = (handleDataChannelMessage s msg sender env).1 from rfl]
      rw [handleDCM_pollingActive]
      exact h
  | legacyCand sender cands =>
      refine ⟨?_, by simp [provStep]⟩
      rw [show (provStep env ice s (PollEv.legacyCand sender cands)).1
            = handleLegacyIceCandidate s sender cands from rfl]
      rw [handleLegacy_pollingActive]
      exact h
  | offerMsg sender sdp cands =>
      refine ⟨?_, handleOffer_no_poll s sender sdp cands ice⟩
      rw [show (provStep env ice s (PollEv.offerMsg sender sdp cands)).1
            = (handleOffer s sender sdp cands ice).1 from rfl]
      rw [handleOffer_pollingActive]
      exact h
  | dispatch a =>
      refine ⟨?_, dispatchAction_no_poll s a env⟩
      rw [show (provStep env ice s (PollEv.dispatch a)).1
            = (dispatchAction s a env).1 from rfl]
      rw [dispatchAction_pollingActive]
      exact h
  | destroyEv =>
      exact ⟨destroy_pollingActive s h, by simp [provStep]⟩

theorem runEvents_quiet (env : Env) (ice : IceEnv) (evs : List PollEv) (s : MP)
    (h : s.pollingActive = false) :
    (runEvents env ice s evs).1.pollingActive = false
    ∧ Effect.pollRequest ∉ (runEvents env ice s evs).2 := by
  induction evs generalizing s with
  | nil => simpa [runEvents] using h
  | cons e es ih =>
      obtain ⟨h1, h2⟩ := provStep_quiet env ice s e h
      obtain ⟨h3, h4⟩ := ih (provStep env ice s e).1 h1
      refine ⟨h3, ?_⟩
      show Effect.pollRequest ∉
        (provStep env ice s e).2 ++ (runEvents env ice (provStep env ice s e).1 es).2
      intro hmem
      rcases List.mem_append.mp hmem with hm | hm
      · exact h2 hm
      · exact h4 hm

theorem connected_stops_polling (s : MP) (p : String) (env : Env) :
    (onConnectionStateChange s p ConnState.connected env).1.pollingActive = false := by
  have hpos := setAdd_length_pos s.connectedPeers p
  by_cases h2 : s.pollingActive = true
  · simp [onConnectionStateChange, stopPollingIfConnected, hpos, h2]
  · have h3 : s.pollingActive = false := by simpa using h2
    simp [onConnectionStateChange, stopPollingIfConnected, hpos, h3]

/-- Claim C6: once any peer connection transitions to `connected`, the
polling interval is cleared and stays cleared through every subsequent
event-loop step, and no further poll request effect is ever issued.  The
event alphabet covers every input the provider processes after its single
`connect()` call: interval ticks, connection state changes, data-channel
messages, relay signals, local dispatches and teardown. -/
theorem C6_polling_stops_permanently (env : Env) (ice : IceEnv) (s : MP)
    (p : String) (post : List PollEv) :
    (onConnectionStateChange s p ConnState.connected env).1.pollingActive = false
    ∧ (runEvents env ice (onConnectionStateChange s p ConnState.connected env).1
        post).1.pollingActive = false
    ∧ Effect.pollRequest ∉ (runEvents env ice
        (onConnectionStateChange s p ConnState.connected env).1 post).2 := by
  have h1 := connected_stops_polling s p env
  obtain ⟨h2, h3⟩ := runEvents_quiet env ice post _ h1
  exact ⟨h1, h2, h3⟩

/-! ## Claim C7 -/

/-- Claim C7: on a transition to `failed` or `disconnected`, the peer is
removed from the connected set, the connection table and the data-channel
table; presence observers are notified; and the loopback fallback is
activated exactly when a broadcast channel exists and the fallback is not
already active (an already-active fallback stays active). -/
theorem C7_failure_cleanup (s : MP) (p : String) (st : ConnState) (env : Env)
    (hst : st = ConnState.failed ∨ st = ConnState.disconnected) :
    p ∉ (onConnectionStateChange s p st env).1.connectedPeers
    ∧ mapGet (onConnectionStateChange s p st env).1.peerConnections p = none
    ∧ mapGet (onConnectionStateChange s p st env).1.dataChannels p = none
    ∧ (∃ ps, Effect.onPlayersChange ps ∈ (onConnectionStateChange s p st env).2)
    ∧ (s.broadcastChannel = true → s.useLocalFallback = false →
        (onConnectionStateChange s p st env).1.useLocalFallback = true
        ∧ Effect.broadcastPost (BCMessage.awarenessMsg s.peerId s.player)
            ∈ (onConnectionStateChange s p st env).2)
    ∧ (s.useLocalFallback = true →
        (onConnectionStateChange s p st env).1.useLocalFallback = true) := by
  have hne : ¬ st = ConnState.connected := by
    rcases hst with rfl | rfl <;> decide
  have hor : st = ConnState.disconnected ∨ st = ConnState.failed := hst.symm
  rw [connFail_eq s p st env hne hor]
  obtain ⟨hr1, hr2, hr3, hr4⟩ := removePeerState_fields s p
  obtain ⟨hf1, hf2, hf3⟩ := enableLocalFallback_fields (removePeerState s p) env
  by_cases h3 : ((removePeerState s p).broadcastChannel
      && !(removePeerState s p).useLocalFallback) = true
  · have h4 := h3
    rw [Bool.and_eq_true, hr1, hr2] at h4
    have hb : s.broadcastChannel = true := h4.1
    have hu : s.useLocalFallback = false := by
      have := h4.2
      cases hcase : s.useLocalFallback
      · rfl
      · rw [hcase] at this
        cases this
    obtain ⟨ha1, ha2⟩ := enableLocalFallback_active (removePeerState s p) env
      (by rw [hr2]; exact hu) (by rw [hr1]; exact hb)
    refine ⟨?_, ?_, ?_, ?_, ?_, ?_⟩
    · rw [if_pos h3]
      show p ∉ (enableLocalFallback (removePeerState s p) env).1.connectedPeers
      rw [hf1]
      simp [removePeerState, setRemove, List.mem_filter]
    · rw [if_pos h3]
      show mapGet (enableLocalFallback (removePeerState s p) env).1.peerConnections p
          = none
      rw [hf2]
      exact mapGet_mapDelete_self _ _
    · rw [if_pos h3]
      show mapGet (enableLocalFallback (removePeerState s p) env).1.dataChannels p
          = none
      rw [hf3]
      exact mapGet_mapDelete_self _ _
    · rw [if_pos h3]
      exact ⟨rosterOf (removePeerState s p) env,
        List.mem_append.mpr (Or.inl (by simp [updateConnectionStatus]))⟩
    · intro _ _
      rw [if_pos h3]
      refine ⟨ha1, List.mem_append.mpr (Or.inr ?_)⟩
      rw [hr3, hr4] at ha2
      exact ha2
    · intro hu2
      rw [hu] at hu2
      cases hu2
  · refine ⟨?_, ?_, ?_, ?_, ?_, ?_⟩
    · rw [if_neg h3]
      simp [removePeerState, setRemove, List.mem_filter]
    · rw [if_neg h3]
      exact mapGet_mapDelete_self _ _
    · rw [if_neg h3]
      exact mapGet_mapDelete_self _ _
    · rw [if_neg h3]
      exact ⟨rosterOf (removePeerState s p) env, by simp [updateConnectionStatus]⟩
    · intro hb hu
      exfalso
      apply h3
      rw [hr1, hr2, hb, hu]
      rfl
    · intro hu
      rw [if_neg h3]
      show (removePeerState s p).useLocalFallback = true
      rw [hr2]
      exact hu

/-- Witness for C7: a localhost guest with one connected peer whose
connection fails; the loopback fallback activates. -/
theorem C7_failure_cleanup_witness :
    "peerX" ∉ (onConnectionStateChange guestLocal "peerX" ConnState.failed
        envW).1.connectedPeers
    ∧ mapGet (onConnectionStateChange guestLocal "peerX" ConnState.failed
        envW).1.peerConnections "peerX" = none
    ∧ mapGet (onConnectionStateChange guestLocal "peerX" ConnState.failed
        envW).1.dataChannels "peerX" = none
    ∧ (∃ ps, Effect.onPlayersChange ps ∈ (onConnectionStateChange guestLocal
        "peerX" ConnState.failed envW).2)
    ∧ (guestLocal.broadcastChannel = true → guestLocal.useLocalFallback = false →
        (onConnectionStateChange guestLocal "peerX" ConnState.failed
          envW).1.useLocalFallback = true
        ∧ Effect.broadcastPost
            (BCMessage.awarenessMsg guestLocal.peerId guestLocal.player)
            ∈ (onConnectionStateChange guestLocal "peerX" ConnState.failed envW).2)
    ∧ (guestLocal.useLocalFallback = true →
        (onConnectionStateChange guestLocal "peerX" ConnState.failed
          envW).1.useLocalFallback = true) :=
  C7_failure_cleanup guestLocal "peerX" ConnState.failed envW (Or.inl rfl)

/-! ## Claim C8 -/

/-- Claim C8 counterexample: `updateGameState` has an effect for a
non-host provider too — the source method assigns the cached snapshot
field unconditionally, with no host check. -/
theorem C8_counterexample_guest_updateGameState :
    guestProv.isHost = false
    ∧ guestProv.initialGameState = none
    ∧ (updateGameState guestProv "snapshotS").initialGameState = some "snapshotS"
    ∧ updateGameState guestProv "snapshotS" ≠ guestProv := by
  decide

/-- Claim C8 as amended: `updateGameState` replaces the cached snapshot
field for any provider, host or not, and changes no other provider state;
only for a host does the snapshot influence observable behaviour — a
non-host's `state-request` replies are empty both before and after the
call. -/
theorem C8_updateGameState_frame (s : MP) (g : String) (p : String) (env : Env) :
    (updateGameState s g).initialGameState = some g
    ∧ (updateGameState s g).peerId = s.peerId
    ∧ (updateGameState s g).isHost = s.isHost
    ∧ (updateGameState s g).player = s.player
    ∧ (updateGameState s g).operationsArray = s.operationsArray
    ∧ (updateGameState s g).metaMap = s.metaMap
    ∧ (updateGameState s g).lastAppliedIndex = s.lastAppliedIndex
    ∧ (updateGameState s g).destroyed = s.destroyed
    ∧ (updateGameState s g).peerConnections = s.peerConnections
    ∧ (updateGameState s g).dataChannels = s.dataChannels
    ∧ (updateGameState s g).pollingActive = s.pollingActive
    ∧ (updateGameState s g).connectedPeers = s.connectedPeers
    ∧ (updateGameState s g).pendingIceCandidates = s.pendingIceCandidates
    ∧ (updateGameState s g).outgoingIceCandidates = s.outgoingIceCandidates
    ∧ (updateGameState s g).broadcastChannel = s.broadcastChannel
    ∧ (updateGameState s g).useLocalFallback = s.useLocalFallback
    ∧ (updateGameState s g).awarenessLocal = s.awarenessLocal
    ∧ (s.isHost = false →
        (handleDataChannelMessage (updateGameState s g) DCMessage.stateRequest
          p env).2 = []
        ∧ (handleDataChannelMessage s DCMessage.stateRequest p env).2 = []) := by
  refine ⟨rfl, rfl, rfl, rfl, rfl, rfl, rfl, rfl, rfl, rfl, rfl, rfl, rfl, rfl,
    rfl, rfl, rfl, ?_⟩
  intro hh
  constructor
  · cases hg : s.initialGameState <;>
      simp [handleDataChannelMessage, updateGameState, hh, hg]
  · cases hg : s.initialGameState <;>
      simp [handleDataChannelMessage, hh, hg]

/-- Witness for C8 at the concrete guest provider. -/
theorem C8_updateGameState_frame_witness :
    (updateGameState guestProv "snapshotT").initialGameState = some "snapshotT"
    ∧ (updateGameState guestProv "snapshotT").peerId = guestProv.peerId
    ∧ (updateGameState guestProv "snapshotT").isHost = guestProv.isHost
    ∧ (updateGameState guestProv "snapshotT").player = guestProv.player
    ∧ (updateGameState guestProv "snapshotT").operationsArray
        = guestProv.operationsArray
    ∧ (updateGameState guestProv "snapshotT").metaMap = guestProv.metaMap
    ∧ (updateGameState guestProv "snapshotT").lastAppliedIndex
        = guestProv.lastAppliedIndex
    ∧ (updateGameState guestProv "snapshotT").destroyed = guestProv.destroyed
    ∧ (updateGameState guestProv "snapshotT").peerConnections
        = guestProv.peerConnections
    ∧ (updateGameState guestProv "snapshotT").dataChannels = guestProv.dataChannels
    ∧ (updateGameState guestProv "snapshotT").pollingActive
        = guestProv.pollingActive
    ∧ (updateGameState guestProv "snapshotT").connectedPeers
        = guestProv.connectedPeers
    ∧ (updateGameState guestProv "snapshotT").pendingIceCandidates
        = guestProv.pendingIceCandidates
    ∧ (updateGameState guestProv "snapshotT").outgoingIceCandidates
        = guestProv.outgoingIceCandidates
    ∧ (updateGameState guestProv "snapshotT").broadcastChannel
        = guestProv.broadcastChannel
    ∧ (updateGameState guestProv "snapshotT").useLocalFallback
        = guestProv.useLocalFallback
    ∧ (updateGameState guestProv "snapshotT").awarenessLocal
        = guestProv.awarenessLocal
    ∧ (guestProv.isHost = false →
        (handleDataChannelMessage (updateGameState guestProv "snapshotT")
          DCMessage.stateRequest "hostpeer" envW).2 = []
        ∧ (handleDataChannelMessage guestProv DCMessage.stateRequest "hostpeer"
            envW).2 = []) :=
  C8_updateGameState_frame guestProv "snapshotT" "hostpeer" envW

/-! ## Claim C9 -/

theorem roomRetry_lookupCount_le (visible : Nat → Bool) (fuel i : Nat) :
    lookupCount (roomRetry visible i fuel) ≤ fuel := by
  induction fuel generalizing i with
  | zero => simp [roomRetry, lookupCount]
  | succ n ih =>
      by_cases h : visible i
      · simp [roomRetry, h, lookupCount, isRoomLookup]
      · have := ih (i + 1)
        simp only [roomRetry, h, if_false, Bool.false_eq_true]
        simp only [lookupCount, List.filter] at this ⊢
        simp [isRoomLookup]
        omega

theorem roomRetry_all_miss (visible : Nat → Bool) (hv : ∀ i, visible i = false)
    (i : Nat) :
    roomRetry visible i 6
      = [Effect.roomLookup, Effect.wait500, Effect.roomLookup, Effect.wait500,
         Effect.roomLookup, Effect.wait500, Effect.roomLookup, Effect.wait500,
         Effect.roomLookup, Effect.wait500, Effect.roomLookup, Effect.wait500] := by
  simp [roomRetry, hv]

/-- Claim C9: when the host's room record is not yet visible, `startPolling`
performs at most 6 room lookups with a 500 ms wait after each miss, and the
polling interval is then installed unconditionally — even when every lookup
misses, the retry exhausts its budget and polling still starts with an
initial poll request. -/
theorem C9_host_room_retry (s : MP) (env : Env)
    (hhost : s.isHost = true) (hpoll : s.pollingActive = false) :
    (startPolling s env).1.pollingActive = true
    ∧ lookupCount (startPolling s env).2 ≤ 6
    ∧ (startPolling s env).2
        = roomRetry env.roomVisible 0 6 ++ [Effect.pollRequest]
    ∧ ((∀ i, env.roomVisible i = false) →
        (startPolling s env).2
          = [Effect.roomLookup, Effect.wait500, Effect.roomLookup, Effect.wait500,
             Effect.roomLookup, Effect.wait500, Effect.roomLookup, Effect.wait500,
             Effect.roomLookup, Effect.wait500, Effect.roomLookup, Effect.wait500,
             Effect.pollRequest]) := by
  refine ⟨?_, ?_, ?_, ?_⟩
  · simp [startPolling, hpoll]
  · have h1 := roomRetry_lookupCount_le env.roomVisible 6 0
    simp only [startPolling, hpoll, Bool.false_eq_true, if_false, hhost, if_true,
      lookupCount, List.filter_append] at h1 ⊢
    simpa [isRoomLookup] using h1
  · simp [startPolling, hpoll, hhost]
  · intro hv
    rw [show (startPolling s env).2
        = roomRetry env.roomVisible 0 6 ++ [Effect.pollRequest] from by
          simp [startPolling, hpoll, hhost]]
    rw [roomRetry_all_miss env.roomVisible hv 0]
    rfl

/-- Witness for C9: the concrete host under an environment where the room
record never becomes visible. -/
theorem C9_host_room_retry_witness :
    (startPolling hostProv envW).1.pollingActive = true
    ∧ lookupCount (startPolling hostProv envW).2 ≤ 6
    ∧ (startPolling hostProv envW).2
        = roomRetry envW.roomVisible 0 6 ++ [Effect.pollRequest]
    ∧ ((∀ i, envW.roomVisible i = false) →
        (startPolling hostProv envW).2
          = [Effect.roomLookup, Effect.wait500, Effect.roomLookup, Effect.wait500,
             Effect.roomLookup, Effect.wait500, Effect.roomLookup, Effect.wait500,
             Effect.roomLookup, Effect.wait500, Effect.roomLookup, Effect.wait500,
             Effect.pollRequest]) :=
  C9_host_room_retry hostProv envW (by decide) (by decide)

/-! ## Claim C10 -/

/-- Claim C10: the roster built by `getPlayers` and `notifyPlayersChange`
marks every remote peer as a non-host placeholder, so the only entry that
can carry the host flag is the self player; hence `getHost()` returns
`undefined` for a non-host provider (its rosters contain no host entry) and
the self player for a host provider.  The hypothesis is the constructor
invariant that the self player's host flag equals the provider's. -/
theorem C10_host_roster (s : MP) (env : Env)
    (hinv : s.player.isHost = s.isHost) :
    (∀ q ∈ rosterOf s env, q.isHost = true → q = s.player)
    ∧ (s.isHost = false →
        getHost s env = none ∧ ∀ q ∈ rosterOf s env, q.isHost = false)
    ∧ (s.isHost = true → getHost s env = some s.player) := by
  refine ⟨?_, ?_, ?_⟩
  · intro q hq hhost
    rcases List.mem_cons.mp hq with rfl | hq
    · rfl
    · rcases List.mem_map.mp hq with ⟨pid, _, rfl⟩
      simp [placeholderFor] at hhost
  · intro hh
    constructor
    · rw [getHost, getPlayers, rosterOf]
      rw [List.find?_cons_of_neg _ (by rw [hinv, hh]; decide)]
      rw [List.find?_eq_none]
      intro q hq
      rcases List.mem_map.mp hq with ⟨pid, _, rfl⟩
      simp [placeholderFor]
    · intro q hq
      rcases List.mem_cons.mp hq with rfl | hq
      · rw [hinv, hh]
      · rcases List.mem_map.mp hq with ⟨pid, _, rfl⟩
        rfl
  · intro hh
    rw [getHost, getPlayers, rosterOf]
    rw [List.find?_cons_of_pos _ (by rw [hinv, hh])]

/-- Witness for C10 at the concrete non-host provider. -/
theorem C10_host_roster_witness :
    (∀ q ∈ rosterOf guestProv envW, q.isHost = true → q = guestProv.player)
    ∧ (guestProv.isHost = false →
        getHost guestProv envW = none
        ∧ ∀ q ∈ rosterOf guestProv envW, q.isHost = false)
    ∧ (guestProv.isHost = true → getHost guestProv envW = some guestProv.player) :=
  C10_host_roster guestProv envW (by decide)

end IsoCity
